import Mathlib

/-!
Shallow embedding of the `nedb-session-store` adapter (`index.js`, the
expiration-aware version): a Connect/Express session store backed by an NeDB
document collection.  The backing collection is modelled as a list of
documents in insertion order; every store operation is a pure function from
the wall-clock time `now` (milliseconds) and the current collection state to
the callback's arguments and the next state.  A small `Backend` oracle
supplies the errors the underlying NeDB operations may report, so that the
adapter's error routing can be stated.

JS value conventions used throughout:
* A JS `Date` is `DateVal := Option Int`: `some t` is a valid date with
  timestamp `t`, `none` is an Invalid Date (every `<` comparison against it
  is false, as in JS).
* A document's `expiresAt` field is `ExpiresAt`: absent (`undefined`, falsy),
  an Invalid Date (truthy, never in the future), or a valid date (truthy).
* JS objects are always truthy; stored `session` payloads are objects.
-/

namespace NeDBSessionStore

/-- A JS `Date` value: `some t` = valid date at timestamp `t` (ms),
`none` = Invalid Date. -/
abbrev DateVal := Option Int

/-- `now < d` for a JS Date `d`: false when `d` is an Invalid Date. -/
def dateLtVal (now : Int) : DateVal → Bool
  | some t => now < t
  | none => false

/-- The `expiresAt` field of a stored document: either absent (falsy), a
present-but-Invalid Date, or a valid date.  `new Date(x)` always produces a
present (truthy) `Date` object, valid or not. -/
inductive ExpiresAt where
  | absent
  | invalidDate
  | at (t : Int)
  deriving DecidableEq, Repr

/-- Build the `expiresAt` field from a `new Date(...)` result. -/
def ExpiresAt.ofDateVal : DateVal → ExpiresAt
  | some t => .at t
  | none => .invalidDate

/-- JS truthiness of the `expiresAt` field: `undefined` is falsy, any `Date`
object (valid or Invalid) is truthy. -/
def ExpiresAt.truthy : ExpiresAt → Bool
  | .absent => false
  | _ => true

/-- `new Date() < expiresAt`: false when `expiresAt` is absent (`now <
undefined`) or an Invalid Date. -/
def ExpiresAt.nowBefore (now : Int) : ExpiresAt → Bool
  | .at t => now < t
  | _ => false

/-- The value found at `session.cookie.expires`: absent, or a present JS
value with its truthiness and the result `new Date(value)` of coercing it to
a date (`none` = not coercible, i.e. an Invalid Date). -/
inductive ExpiresVal where
  | absent
  | val (truthy : Bool) (date : DateVal)
  deriving DecidableEq, Repr

/-- A cookie as plain data: its `expires` member plus its remaining
(key, value) members. -/
structure CookieData where
  expires : ExpiresVal
  extra : List (String × String)
  deriving DecidableEq, Repr

/-- A live cookie object inside a session passed to `set`/`touch`: its own
data, and — when the object offers a `toJSON` function — the plain data that
function returns. -/
structure CookieObj where
  data : CookieData
  toJSONResult : Option CookieData
  deriving DecidableEq, Repr

/-- A session payload passed to `set`/`touch`: the `cookie` member (if any)
and the remaining (key, value) members. -/
structure Session where
  cookie : Option CookieObj
  fields : List (String × String)
  deriving DecidableEq, Repr

/-- A session payload as stored in (and read back from) the collection: the
cookie has been reduced to plain data. -/
structure StoredSession where
  cookie : Option CookieData
  fields : List (String × String)
  deriving DecidableEq, Repr

/-- The truthiness test `session && session.cookie && session.cookie.expires`
reads the live cookie's own `expires` member. -/
def Session.cookieExpires (s : Session) : ExpiresVal :=
  match s.cookie with
  | none => .absent
  | some c => c.data.expires

/-- The cookie-safe serialization performed by `set`: every key is copied,
except that a `cookie` offering a `toJSON` function is replaced by the result
of calling it. -/
def serializeSession (s : Session) : StoredSession :=
  { cookie := s.cookie.map (fun c => c.toJSONResult.getD c.data),
    fields := s.fields }

/-- The session argument itself, viewed as plain stored data (the comparison
object for round-trip claims): the cookie's own data, `toJSON` ignored. -/
def sessionAsData (s : Session) : StoredSession :=
  { cookie := s.cookie.map (fun c => c.data), fields := s.fields }

/-- A document of the backing NeDB collection, as shaped by this adapter.
`createdAt`/`updatedAt` are maintained by NeDB's `timestampData` option. -/
structure Doc where
  _id : String
  session : StoredSession
  expiresAt : ExpiresAt
  createdAt : Int
  updatedAt : Int
  deriving DecidableEq, Repr

/-- The backing collection: documents in insertion order. -/
abbrev Db := List Doc

/-- `findOne({_id: sessionId})`: the first document with a matching `_id`. -/
def findDoc (id : String) (db : Db) : Option Doc :=
  db.find? (fun d => d._id == id)

/-- Number of documents whose `_id` matches. -/
def countId (id : String) (db : Db) : Nat :=
  (db.filter (fun d => d._id == id)).length

/-- `update({_id: id}, ..., {multi: false})`: modify only the first matching
document. -/
def updateFirst (id : String) (f : Doc → Doc) : Db → Db
  | [] => []
  | d :: ds => if d._id == id then f d :: ds else d :: updateFirst id f ds

/-- `remove({_id: id}, {multi: false})`: remove only the first matching
document. -/
def removeFirst (id : String) : Db → Db
  | [] => []
  | d :: ds => if d._id == id then ds else d :: removeFirst id ds

/-- `JSON.stringify` of a session id (ids without characters needing
escapes). -/
def jsonStringify (s : String) : String := "\"" ++ s ++ "\""

/-- Error oracle for the underlying NeDB operations: what error (if any) each
operation reports.  `none` = the operation succeeds. -/
structure Backend where
  findErr : Option String
  findOneErr : Option String
  updateErr : Option String
  removeErr : String → Option String

/-- The all-success oracle. -/
def Backend.ok : Backend :=
  { findErr := none, findOneErr := none, updateErr := none,
    removeErr := fun _ => none }

/-- "Constants" -/
def ONE_DAY : Int := 86400000

def TWO_WEEKS : Int := 14 * ONE_DAY

namespace NeDBStore

/-- The liveness test shared by `get` and `all`, exactly as written in the
source: `existingDoc.session && !existingDoc.expiresAt || new Date() <
existingDoc.expiresAt` (in JS, `&&` binds tighter than `||`; a stored
`session` is an object, hence truthy, so the first conjunct is the model
constant `true`). -/
def isLive (now : Int) (d : Doc) : Bool :=
  (true && !d.expiresAt.truthy) || d.expiresAt.nowBefore now

/-- Remove a single session: `remove({_id: sessionId}, {multi: false})`.
The callback receives only the error; `numRemoved` is ignored.  When the
underlying remove errors, no document is removed. -/
def destroy (be : Backend) (id : String) (db : Db) : Option String × Db :=
  match be.removeErr id with
  | some e => (some e, db)
  | none => (none, removeFirst id db)

/-- Remove ALL sessions: `remove({}, {multi: true})`. -/
def clear (_db : Db) : Option String × Db :=
  (none, [])

/-- `set`'s rolling-expiration computation: `new Date(session.cookie.expires)`
when `session && session.cookie && session.cookie.expires` is truthy,
otherwise `new Date(Date.now() + this._defaultExpiry)`. -/
def expirationDate (defaultExpiry now : Int) (s : Session) : ExpiresAt :=
  match s.cookieExpires with
  | .val true d => ExpiresAt.ofDateVal d
  | _ => .at (now + defaultExpiry)

/-- Create or update a single session's data: upsert of
`{$set: {session: sess, expiresAt: expirationDate}}` at `{_id: sessionId}`
with `{multi: false, upsert: true}`.  NeDB's `timestampData` stamps
`createdAt`/`updatedAt`; the callback turns `numAffected === 0 && !newDoc`
into a `No Session exists` error (dead for an upsert), else passes the
backend error through.  Returns (callback error, next state). -/
def set (be : Backend) (defaultExpiry now : Int) (id : String) (s : Session)
    (db : Db) : Option String × Db :=
  match be.updateErr with
  | some e => (some e, db)
  | none =>
    let expAt := expirationDate defaultExpiry now s
    let sess := serializeSession s
    let r : Nat × Bool × Db :=
      match findDoc id db with
      | some _ =>
        (1, false,
         updateFirst id
           (fun d => { d with session := sess, expiresAt := expAt, updatedAt := now }) db)
      | none =>
        (1, true,
         db ++ [{ _id := id, session := sess, expiresAt := expAt,
                  createdAt := now, updatedAt := now }])
    let err : Option String :=
      if r.1 == 0 && !r.2.1 then
        some ("No Session exists with ID " ++ jsonStringify id)
      else none
    (err, r.2.2)

/-- The effect of `touch`'s `touchSetOp` on a document: `{updatedAt: new
Date()}` plus `expiresAt: new Date(session.cookie.expires)` when the
supplied session's cookie carries a truthy `expires`. -/
def touchedDoc (now : Int) (s : Session) (d : Doc) : Doc :=
  match s.cookieExpires with
  | .val true dv =>
    { d with updatedAt := now, expiresAt := ExpiresAt.ofDateVal dv }
  | _ => { d with updatedAt := now }

/-- Touch a single session: `{$set: touchSetOp}` at `{_id: sessionId}` with
`{multi: false, upsert: false}`.  `numAffected === 0` becomes a
`No Session exists` error. -/
def touch (be : Backend) (now : Int) (id : String) (s : Session) (db : Db) :
    Option String × Db :=
  match be.updateErr with
  | some e => (some e, db)
  | none =>
    match findDoc id db with
    | some _ => (none, updateFirst id (touchedDoc now s) db)
    | none =>
      (some ("No Session exists with ID " ++ jsonStringify id), db)

/-- Get a single session's data via `findOne({_id: sessionId})`: lookup
errors propagate with a null payload; a live document's payload is returned;
a stale document is destroyed and the destroy's error is the callback's
error, with a null payload; no document yields `(null, null)`.
Returns (callback error, callback payload, next state). -/
def get (be : Backend) (now : Int) (id : String) (db : Db) :
    Option String × Option StoredSession × Db :=
  match be.findOneErr with
  | some e => (some e, none, db)
  | none =>
    match findDoc id db with
    | some d =>
      if isLive now d then
        (none, some d.session, db)
      else
        let r := destroy be id db
        (r.1, none, r.2)
    | none => (none, none, db)

/-- The state and emitted-error effect of `all`'s impure `filter` callback:
each stale document (in collection order) is destroyed; a failed destroy
leaves the document and emits its error on the adapter's error channel. -/
def allDestroys (be : Backend) (db : Db) (stale : List Doc) :
    Db × List String :=
  stale.foldl
    (fun acc d =>
      match be.removeErr d._id with
      | some e => (acc.1, acc.2 ++ [e])
      | none => (removeFirst d._id acc.1, acc.2))
    (db, [])

/-- Get ALL sessions' data via `find({})`: query errors propagate with a
null result; otherwise the documents are partitioned by the same liveness
test as `get`, every stale document is destroyed as a side effect (destroy
errors only emitted on the error channel), and the callback receives the
live documents' payloads in collection order.
Returns (callback error, callback payload, next state, emitted errors). -/
def all (be : Backend) (now : Int) (db : Db) :
    Option String × Option (List StoredSession) × Db × List String :=
  match be.findErr with
  | some e => (some e, none, db, [])
  | none =>
    let live := db.filter (fun d => isLive now d)
    let stale := db.filter (fun d => !isLive now d)
    let eff := allDestroys be db stale
    (none, some (live.map (fun d => d.session)), eff.1, eff.2)

/-- Count ALL sessions: `this.all(...)` with
`callback(err, (sessions || []).length)`, so the count reflects `all`'s
liveness filtering (and its purge side effects).
Returns (callback error, callback count, next state, emitted errors). -/
def length (be : Backend) (now : Int) (db : Db) :
    Option String × Nat × Db × List String :=
  let r := all be now db
  (r.1, (r.2.1.getD []).length, r.2.2.1, r.2.2.2)

end NeDBStore

/-- A JS-ish configuration value for the numeric option normalizations:
absent, the explicit `null` sentinel, a number (`finite` false models
`NaN`/`Infinity`; `v` is its value when finite, integral since the options
are millisecond counts), or a string together with its `parseInt` result
(`none` = `NaN`). -/
inductive ConfigVal where
  | missing
  | nullSentinel
  | num (finite : Bool) (v : Int)
  | str (parsed : Option Int)
  deriving DecidableEq, Repr

/-- `_defaultExpiry` normalization: a finite positive number passes through
(`parseInt` is the identity on integral values); anything else falls back to
`TWO_WEEKS`. -/
def normalizeDefaultExpiry : ConfigVal → Int
  | .num true v => if v > 0 then v else TWO_WEEKS
  | _ => TWO_WEEKS

/-- `autoCompactInterval` normalization: the explicit `null` sentinel is kept
as `null`; otherwise `aci = parseInt(value, 10)` and
`aci = aci < 5000 ? 5000 : (aci < ONE_DAY ? aci : ONE_DAY)` — both `NaN`
comparisons are false, so a `NaN` (absent or unparsable value, or a
non-finite number) lands on `ONE_DAY`. -/
def normalizeAci : ConfigVal → Option Int
  | .nullSentinel => none
  | .num true v => some (if v < 5000 then 5000 else if v < ONE_DAY then v else ONE_DAY)
  | .str (some v) => some (if v < 5000 then 5000 else if v < ONE_DAY then v else ONE_DAY)
  | _ => some ONE_DAY

/-- Whether the constructor schedules periodic compaction:
`if (options.filename && aci !== null)
   datastore.persistence.setAutocompactionInterval(aci)`. -/
def compactionScheduled (hasFilename : Bool) (aci : Option Int) : Bool :=
  hasFilename && aci.isSome

/-! ### Spec-side liveness

The spec's §3 invariant, stated in its own words: a record is live iff
`expiresAt` is absent OR the current time is strictly before `expiresAt`.
(A present-but-Invalid date is neither absent nor after the current time.) -/

/-- Liveness as the spec words it (to be compared with the code's
`NeDBStore.isLive`). -/
def liveSpec (now : Int) (d : Doc) : Bool :=
  match d.expiresAt with
  | .absent => true
  | .invalidDate => false
  | .at t => decide (now < t)

/-- Liveness as a proposition, in the claim's phrasing: `expiresAt` is
absent, or the current time is strictly before it. -/
def LiveClaim (now : Int) (d : Doc) : Prop :=
  d.expiresAt = .absent ∨ ∃ t, d.expiresAt = ExpiresAt.at t ∧ now < t

/-- The document `set` writes over an existing document `d0`. -/
def setDoc (de now : Int) (s : Session) (d0 : Doc) : Doc :=
  { d0 with session := serializeSession s,
            expiresAt := NeDBStore.expirationDate de now s, updatedAt := now }

/-- The document `set` inserts when none exists. -/
def newDoc (de now : Int) (id : String) (s : Session) : Doc :=
  { _id := id, session := serializeSession s,
    expiresAt := NeDBStore.expirationDate de now s,
    createdAt := now, updatedAt := now }

/-! ### Concrete fixtures for witnesses and counterexamples -/

/-- A session whose cookie expires at timestamp 5000. -/
def sessA : Session :=
  { cookie := some { data := { expires := .val true (some 5000), extra := [] },
                     toJSONResult := none },
    fields := [("user", "alice")] }

/-- A session without a cookie. -/
def sessB : Session :=
  { cookie := none, fields := [("user", "bob")] }

/-- A session whose cookie carries `expires: false` — present, falsy, and
coercible (`new Date(false)` is the valid date 0). -/
def sessFalseExpires : Session :=
  { cookie := some { data := { expires := .val false (some 0), extra := [] },
                     toJSONResult := none },
    fields := [("user", "carol")] }

/-- A session whose cookie offers a `toJSON` that drops one of the cookie's
own members. -/
def sessLossyCookie : Session :=
  { cookie := some
      { data := { expires := .val true (some 5000), extra := [("orig", "1")] },
        toJSONResult := some { expires := .val true (some 5000), extra := [] } },
    fields := [] }

/-- A stored stale document (expired at 5000) with id "a". -/
def docStaleA : Doc :=
  { _id := "a", session := { cookie := none, fields := [("user", "alice")] },
    expiresAt := ExpiresAt.at 5000, createdAt := 100, updatedAt := 100 }

/-- A stored live document (expires at 99999) with id "b". -/
def docLiveB : Doc :=
  { _id := "b", session := { cookie := none, fields := [("user", "bob")] },
    expiresAt := ExpiresAt.at 99999, createdAt := 100, updatedAt := 100 }

/-- A stored non-expiring document (absent `expiresAt`) with id "c". -/
def docNoExpiryC : Doc :=
  { _id := "c", session := { cookie := none, fields := [("user", "carol")] },
    expiresAt := ExpiresAt.absent, createdAt := 100, updatedAt := 100 }

/-- A mixed collection: live, stale, non-expiring. -/
def dbMix : Db := [docLiveB, docStaleA, docNoExpiryC]

/-- A backend whose remove fails (only) for id "a". -/
def beFailA : Backend :=
  { findErr := none, findOneErr := none, updateErr := none,
    removeErr := fun i => if i == "a" then some "boom" else none }

theorem isLive_eq_liveSpec (now : Int) (d : Doc) :
    NeDBStore.isLive now d = liveSpec now d := by
  cases h : d.expiresAt <;>
    simp [NeDBStore.isLive, liveSpec, ExpiresAt.truthy, ExpiresAt.nowBefore, h]

theorem isLive_iff_liveClaim (now : Int) (d : Doc) :
    NeDBStore.isLive now d = true ↔ LiveClaim now d := by
  cases h : d.expiresAt <;>
    simp [NeDBStore.isLive, LiveClaim, ExpiresAt.truthy, ExpiresAt.nowBefore, h]

/-! ### Collection lemmas -/

theorem findDoc_nil (id : String) : findDoc id [] = none := rfl

theorem findDoc_eq_none_iff {id : String} {db : Db} :
    findDoc id db = none ↔ ∀ d ∈ db, d._id ≠ id := by
  simp [findDoc, List.find?_eq_none]

theorem findDoc_cons_self {id : String} {d : Doc} (db : Db) (h : d._id = id) :
    findDoc id (d :: db) = some d :=
  List.find?_cons_of_pos db (by simp [h])

theorem findDoc_cons_ne {id : String} {d : Doc} (db : Db) (h : d._id ≠ id) :
    findDoc id (d :: db) = findDoc id db :=
  List.find?_cons_of_neg db (by simp [h])

theorem findDoc_prefix_none {id : String} {pre : Db} (rest : Db)
    (h : ∀ d ∈ pre, d._id ≠ id) :
    findDoc id (pre ++ rest) = findDoc id rest := by
  induction pre with
  | nil => rfl
  | cons d ds ih =>
    rw [List.cons_append, findDoc_cons_ne _ (h d (by simp)),
      ih (fun x hx => h x (by simp [hx]))]

/-- A successful `findOne` splits the collection: an unmatched prefix, the
found document, the rest. -/
theorem findDoc_split {id : String} {db : Db} {d0 : Doc}
    (h : findDoc id db = some d0) :
    d0._id = id ∧
      ∃ pre post, db = pre ++ d0 :: post ∧ ∀ d ∈ pre, d._id ≠ id := by
  induction db with
  | nil => simp [findDoc] at h
  | cons d ds ih =>
    by_cases hd : d._id = id
    · rw [findDoc_cons_self ds hd] at h
      cases h
      exact ⟨hd, [], ds, rfl, by simp⟩
    · rw [findDoc_cons_ne ds hd] at h
      obtain ⟨h1, pre, post, h2, h3⟩ := ih h
      refine ⟨h1, d :: pre, post, by simp [h2], ?_⟩
      intro x hx
      rcases List.mem_cons.mp hx with rfl | hx
      · exact hd
      · exact h3 x hx

theorem updateFirst_split {id : String} (f : Doc → Doc) {pre : Db} (d0 : Doc)
    (post : Db) (hpre : ∀ d ∈ pre, d._id ≠ id) (hd : d0._id = id) :
    updateFirst id f (pre ++ d0 :: post) = pre ++ f d0 :: post := by
  induction pre with
  | nil => simp [updateFirst, hd]
  | cons d ds ih =>
    have hne : d._id ≠ id := hpre d (by simp)
    simp only [List.cons_append, updateFirst, List.append_eq]
    rw [if_neg (by simp [hne]), ih (fun x hx => hpre x (by simp [hx]))]

theorem removeFirst_split {id : String} {pre : Db} (d0 : Doc) (post : Db)
    (hpre : ∀ d ∈ pre, d._id ≠ id) (hd : d0._id = id) :
    removeFirst id (pre ++ d0 :: post) = pre ++ post := by
  induction pre with
  | nil => simp [removeFirst, hd]
  | cons d ds ih =>
    have hne : d._id ≠ id := hpre d (by simp)
    simp only [List.cons_append, removeFirst, List.append_eq]
    rw [if_neg (by simp [hne]), ih (fun x hx => hpre x (by simp [hx]))]

theorem removeFirst_of_none {id : String} {db : Db}
    (h : ∀ d ∈ db, d._id ≠ id) : removeFirst id db = db := by
  induction db with
  | nil => rfl
  | cons d ds ih =>
    simp only [removeFirst]
    rw [if_neg (by simp [h d (by simp)]), ih (fun x hx => h x (by simp [hx]))]

theorem countId_eq_zero_iff {id : String} {db : Db} :
    countId id db = 0 ↔ ∀ d ∈ db, d._id ≠ id := by
  simp [countId, List.length_eq_zero, List.filter_eq_nil_iff]

theorem countId_append (id : String) (l1 l2 : Db) :
    countId id (l1 ++ l2) = countId id l1 + countId id l2 := by
  simp [countId, List.filter_append]

theorem countId_cons_self (id : String) {d : Doc} (db : Db) (h : d._id = id) :
    countId id (d :: db) = countId id db + 1 := by
  simp [countId, List.filter_cons, h, Nat.add_comm]

/-! ### Characterization of `set` -/

theorem set_fst {be : Backend} (de now : Int) (id : String) (s : Session)
    (db : Db) (hupd : be.updateErr = none) :
    (NeDBStore.set be de now id s db).1 = none := by
  simp only [NeDBStore.set, hupd]
  cases hf : findDoc id db <;> simp [hf]

theorem set_state_not_found {be : Backend} (de now : Int) (id : String)
    (s : Session) {db : Db} (hupd : be.updateErr = none)
    (hf : findDoc id db = none) :
    (NeDBStore.set be de now id s db).2 = db ++ [newDoc de now id s] := by
  simp [NeDBStore.set, hupd, hf, newDoc]

theorem set_state_found {be : Backend} (de now : Int) (id : String)
    (s : Session) {db : Db} {d0 : Doc} {pre post : Db}
    (hupd : be.updateErr = none) (hf : findDoc id db = some d0)
    (hsplit : db = pre ++ d0 :: post) (hpre : ∀ d ∈ pre, d._id ≠ id) :
    (NeDBStore.set be de now id s db).2 = pre ++ setDoc de now s d0 :: post := by
  have hd : d0._id = id := (findDoc_split hf).1
  simp only [NeDBStore.set, hupd, hf]
  rw [hsplit]
  exact updateFirst_split _ d0 post hpre hd

theorem findDoc_set {be : Backend} (de now : Int) (id : String) (s : Session)
    (db : Db) (hupd : be.updateErr = none) :
    ∃ c, findDoc id (NeDBStore.set be de now id s db).2 =
      some { _id := id, session := serializeSession s,
             expiresAt := NeDBStore.expirationDate de now s,
             createdAt := c, updatedAt := now } := by
  cases hf : findDoc id db with
  | none =>
    refine ⟨now, ?_⟩
    rw [set_state_not_found de now id s hupd hf,
      findDoc_prefix_none _ (findDoc_eq_none_iff.mp hf)]
    exact findDoc_cons_self [] rfl
  | some d0 =>
    obtain ⟨hd, pre, post, hsplit, hpre⟩ := findDoc_split hf
    refine ⟨d0.createdAt, ?_⟩
    rw [set_state_found de now id s hupd hf hsplit hpre,
      findDoc_prefix_none _ hpre, findDoc_cons_self _ (by simp [setDoc, hd])]
    simp [setDoc, hd]

theorem countId_set {be : Backend} (de now : Int) (id : String) (s : Session)
    {db : Db} (hupd : be.updateErr = none) (hcount : countId id db ≤ 1) :
    countId id (NeDBStore.set be de now id s db).2 = 1 := by
  cases hf : findDoc id db with
  | none =>
    rw [set_state_not_found de now id s hupd hf, countId_append,
      countId_eq_zero_iff.mpr (findDoc_eq_none_iff.mp hf)]
    simp [countId, List.filter, newDoc]
  | some d0 =>
    obtain ⟨hd, pre, post, hsplit, hpre⟩ := findDoc_split hf
    have hpre0 : countId id pre = 0 := countId_eq_zero_iff.mpr hpre
    have hpost0 : countId id post = 0 := by
      have := hcount
      rw [hsplit, countId_append, hpre0, countId_cons_self id post hd] at this
      omega
    rw [set_state_found de now id s hupd hf hsplit hpre, countId_append,
      hpre0, countId_cons_self id post (by simp [setDoc, hd]), hpost0]

theorem set_frame_mem {be : Backend} (de now : Int) (id : String)
    (s : Session) {db : Db} (hupd : be.updateErr = none) :
    ∀ d ∈ (NeDBStore.set be de now id s db).2, d._id ≠ id → d ∈ db := by
  intro d hmem hne
  cases hf : findDoc id db with
  | none =>
    rw [set_state_not_found de now id s hupd hf] at hmem
    rcases List.mem_append.mp hmem with h | h
    · exact h
    · simp only [List.mem_singleton] at h
      exact absurd (h ▸ rfl) hne
  | some d0 =>
    obtain ⟨hd, pre, post, hsplit, hpre⟩ := findDoc_split hf
    rw [set_state_found de now id s hupd hf hsplit hpre] at hmem
    rw [hsplit]
    rcases List.mem_append.mp hmem with h | h
    · exact List.mem_append.mpr (Or.inl h)
    · rcases List.mem_cons.mp h with rfl | h
      · exact absurd (by simp [setDoc, hd]) hne
      · exact List.mem_append.mpr (Or.inr (List.mem_cons.mpr (Or.inr h)))

/-! ### Characterization of `all`'s purge side effects -/

theorem removeFirst_cons_ne {id : String} {d : Doc} (ds : Db)
    (h : d._id ≠ id) : removeFirst id (d :: ds) = d :: removeFirst id ds := by
  simp [removeFirst, h]

theorem allDestroys_snd (be : Backend) (stale : List Doc) :
    ∀ (db : Db) (errs : List String),
      (stale.foldl
        (fun acc d =>
          match be.removeErr d._id with
          | some e => (acc.1, acc.2 ++ [e])
          | none => (removeFirst d._id acc.1, acc.2))
        (db, errs)).2 =
      errs ++ stale.filterMap (fun d => be.removeErr d._id) := by
  induction stale with
  | nil => intro db errs; simp
  | cons d ds ih =>
    intro db errs
    cases h : be.removeErr d._id with
    | some e => simp [List.foldl_cons, h, ih]
    | none => simp [List.foldl_cons, h, ih]

theorem allDestroys_fst (be : Backend) (stale : List Doc) :
    ∀ (db : Db) (errs : List String),
      (stale.foldl
        (fun acc d =>
          match be.removeErr d._id with
          | some e => (acc.1, acc.2 ++ [e])
          | none => (removeFirst d._id acc.1, acc.2))
        (db, errs)).1 =
      (stale.filter (fun d => (be.removeErr d._id).isNone)).foldl
        (fun acc d => removeFirst d._id acc) db := by
  induction stale with
  | nil => intro db errs; simp
  | cons d ds ih =>
    intro db errs
    cases h : be.removeErr d._id with
    | some e => simp [List.foldl_cons, List.filter_cons, h, ih]
    | none => simp [List.foldl_cons, List.filter_cons, h, ih]

theorem foldl_removeFirst_cons_ne (d : Doc) (stale : List Doc) :
    ∀ ds : Db, (∀ x ∈ stale, x._id ≠ d._id) →
      stale.foldl (fun acc x => removeFirst x._id acc) (d :: ds) =
        d :: stale.foldl (fun acc x => removeFirst x._id acc) ds := by
  induction stale with
  | nil => intro ds _; rfl
  | cons x xs ih =>
    intro ds h
    have hr : removeFirst x._id (d :: ds) = d :: removeFirst x._id ds :=
      removeFirst_cons_ne ds (fun he => h x (by simp) he.symm)
    rw [List.foldl_cons, List.foldl_cons, hr,
      ih _ (fun y hy => h y (by simp [hy]))]

theorem foldl_removeFirst_filter (q : Doc → Bool) :
    ∀ db : Db, (db.map (fun d => d._id)).Nodup →
      (db.filter q).foldl (fun acc d => removeFirst d._id acc) db =
        db.filter (fun d => !q d) := by
  intro db
  induction db with
  | nil => intro _; rfl
  | cons d ds ih =>
    intro hnd
    rw [List.map_cons, List.nodup_cons] at hnd
    have hne : ∀ x ∈ ds.filter q, x._id ≠ d._id := by
      intro x hx he
      exact hnd.1 (he ▸ List.mem_map_of_mem (fun d => d._id) (List.mem_filter.mp hx).1)
    cases hq : q d with
    | true =>
      have h1 : List.filter q (d :: ds) = d :: List.filter q ds :=
        List.filter_cons_of_pos hq
      have h2 : List.filter (fun x => !q x) (d :: ds) =
          List.filter (fun x => !q x) ds :=
        List.filter_cons_of_neg (by simp [hq])
      have hrm : removeFirst d._id (d :: ds) = ds := by simp [removeFirst]
      rw [h1, h2, List.foldl_cons, hrm, ih hnd.2]
    | false =>
      have h1 : List.filter q (d :: ds) = List.filter q ds :=
        List.filter_cons_of_neg (by simp [hq])
      have h2 : List.filter (fun x => !q x) (d :: ds) =
          d :: List.filter (fun x => !q x) ds :=
        List.filter_cons_of_pos (by simp [hq])
      rw [h1, h2, foldl_removeFirst_cons_ne d _ ds hne, ih hnd.2]

/-- `all` with a successful underlying query, fully characterized: no
callback error, the live payloads in collection order, the purge fold as the
next state, and exactly the failed destroys' errors emitted. -/
theorem all_eq (be : Backend) (now : Int) (db : Db)
    (hfe : be.findErr = none) :
    NeDBStore.all be now db =
      (none,
       some ((db.filter (fun d => NeDBStore.isLive now d)).map (fun d => d.session)),
       (db.filter (fun d => !NeDBStore.isLive now d && (be.removeErr d._id).isNone)).foldl
         (fun acc d => removeFirst d._id acc) db,
       (db.filter (fun d => !NeDBStore.isLive now d)).filterMap
         (fun d => be.removeErr d._id)) := by
  simp only [NeDBStore.all, hfe, NeDBStore.allDestroys]
  rw [allDestroys_snd, allDestroys_fst, List.filter_filter]
  have hc : List.filter (fun a => (be.removeErr a._id).isNone && !NeDBStore.isLive now a) db =
      List.filter (fun d => !NeDBStore.isLive now d && (be.removeErr d._id).isNone) db :=
    List.filter_congr (fun d _ => Bool.and_comm _ _)
  rw [hc]
  simp

/-- With unique ids, `all` purges exactly the stale documents whose destroy
succeeded, preserving the order of the survivors. -/
theorem all_state_nodup (be : Backend) (now : Int) (db : Db)
    (hfe : be.findErr = none) (hnd : (db.map (fun d => d._id)).Nodup) :
    (NeDBStore.all be now db).2.2.1 =
      db.filter (fun d => NeDBStore.isLive now d || (be.removeErr d._id).isSome) := by
  rw [all_eq be now db hfe]
  show (db.filter _).foldl _ db = _
  rw [foldl_removeFirst_filter _ db hnd]
  refine List.filter_congr (fun d _ => ?_)
  cases NeDBStore.isLive now d <;> cases h : be.removeErr d._id <;> simp [h]

theorem mem_removeFirst_of_ne {id : String} {d : Doc} :
    ∀ {db : Db}, d ∈ db → d._id ≠ id → d ∈ removeFirst id db := by
  intro db
  induction db with
  | nil => intro h _; exact absurd h (List.not_mem_nil d)
  | cons x xs ih =>
    intro hmem hne
    by_cases hx : x._id = id
    · rcases List.mem_cons.mp hmem with rfl | hmem
      · exact absurd hx hne
      · rw [show removeFirst id (x :: xs) = xs by simp [removeFirst, hx]]
        exact hmem
    · rw [removeFirst_cons_ne xs hx]
      rcases List.mem_cons.mp hmem with rfl | hmem
      · exact List.mem_cons_self d (removeFirst id xs)
      · exact List.mem_cons_of_mem x (ih hmem hne)

theorem removeFirst_length_of_found {id : String} :
    ∀ {db : Db} {d0 : Doc}, findDoc id db = some d0 →
      (removeFirst id db).length + 1 = db.length := by
  intro db
  induction db with
  | nil => intro d0 h; simp [findDoc] at h
  | cons x xs ih =>
    intro d0 h
    by_cases hx : x._id = id
    · rw [show removeFirst id (x :: xs) = xs by simp [removeFirst, hx]]
      rfl
    · rw [findDoc_cons_ne xs hx] at h
      rw [removeFirst_cons_ne xs hx, List.length_cons, List.length_cons, ih h]

theorem eq_of_countId_le_one {id : String} {db : Db} {d1 d2 : Doc}
    (hcount : countId id db ≤ 1) (h1 : d1 ∈ db) (h2 : d2 ∈ db)
    (hid1 : d1._id = id) (hid2 : d2._id = id) : d1 = d2 := by
  have hm1 : d1 ∈ db.filter (fun d => d._id == id) :=
    List.mem_filter.mpr ⟨h1, by simp [hid1]⟩
  have hm2 : d2 ∈ db.filter (fun d => d._id == id) :=
    List.mem_filter.mpr ⟨h2, by simp [hid2]⟩
  match hf : db.filter (fun d => d._id == id) with
  | [] =>
    rw [hf] at hm1
    exact absurd hm1 (List.not_mem_nil d1)
  | [x] =>
    rw [hf] at hm1 hm2
    rw [List.mem_singleton.mp hm1, List.mem_singleton.mp hm2]
  | x :: y :: xs =>
    have := hcount
    rw [countId, hf] at this
    simp at this

/-- After `set`, a successful single-document remove of the same id leaves
no document with that id. -/
theorem removeFirst_set_clean {be : Backend} (de now : Int) (id : String)
    (s : Session) {db : Db} (hupd : be.updateErr = none)
    (hcount : countId id db ≤ 1) :
    ∀ d ∈ removeFirst id (NeDBStore.set be de now id s db).2, d._id ≠ id := by
  intro d hmem hid
  obtain ⟨c, hfind⟩ := findDoc_set de now id s db hupd
  obtain ⟨hd, pre, post, hsplit, hpre⟩ := findDoc_split hfind
  have hc1 : countId id (NeDBStore.set be de now id s db).2 = 1 :=
    countId_set de now id s hupd hcount
  have hpre0 : countId id pre = 0 := countId_eq_zero_iff.mpr hpre
  have hpost0 : countId id post = 0 := by
    rw [hsplit, countId_append, hpre0, countId_cons_self id post hd] at hc1
    omega
  rw [hsplit, removeFirst_split _ post hpre hd] at hmem
  rcases List.mem_append.mp hmem with h | h
  · exact hpre d h hid
  · exact countId_eq_zero_iff.mp hpost0 d h hid

/-! ### Projections of `touch`'s update -/

theorem touchedDoc_id (now : Int) (s : Session) (d : Doc) :
    (NeDBStore.touchedDoc now s d)._id = d._id := by
  cases h : s.cookieExpires with
  | absent => simp [NeDBStore.touchedDoc, h]
  | val t dv => cases t <;> simp [NeDBStore.touchedDoc, h]

theorem touchedDoc_session (now : Int) (s : Session) (d : Doc) :
    (NeDBStore.touchedDoc now s d).session = d.session := by
  cases h : s.cookieExpires with
  | absent => simp [NeDBStore.touchedDoc, h]
  | val t dv => cases t <;> simp [NeDBStore.touchedDoc, h]

theorem touchedDoc_createdAt (now : Int) (s : Session) (d : Doc) :
    (NeDBStore.touchedDoc now s d).createdAt = d.createdAt := by
  cases h : s.cookieExpires with
  | absent => simp [NeDBStore.touchedDoc, h]
  | val t dv => cases t <;> simp [NeDBStore.touchedDoc, h]

theorem touchedDoc_updatedAt (now : Int) (s : Session) (d : Doc) :
    (NeDBStore.touchedDoc now s d).updatedAt = now := by
  cases h : s.cookieExpires with
  | absent => simp [NeDBStore.touchedDoc, h]
  | val t dv => cases t <;> simp [NeDBStore.touchedDoc, h]

theorem touchedDoc_expiresAt_of_truthy (now : Int) (s : Session) (d : Doc)
    (dv : DateVal) (h : s.cookieExpires = .val true dv) :
    (NeDBStore.touchedDoc now s d).expiresAt = ExpiresAt.ofDateVal dv := by
  simp [NeDBStore.touchedDoc, h]

theorem touchedDoc_expiresAt_of_not_truthy (now : Int) (s : Session) (d : Doc)
    (h : ∀ dv, s.cookieExpires ≠ .val true dv) :
    (NeDBStore.touchedDoc now s d).expiresAt = d.expiresAt := by
  cases he : s.cookieExpires with
  | absent => simp [NeDBStore.touchedDoc, he]
  | val t dv =>
    cases t with
    | true => exact absurd he (h dv)
    | false => simp [NeDBStore.touchedDoc, he]

/-! ### Claim theorems -/

/-- C1: for every sessionId, `get` (under a successful underlying lookup)
has exactly three outcomes: no record → callback `(null, null)`; record
found and live (its `expiresAt` absent or the current time strictly before
it) → callback `(null, session-payload)`; record found but stale → the
adapter destroys that record and the callback receives
`(destroyError, null)`.  A stale record is never returned as a payload. -/
theorem get_trichotomy (be : Backend) (now : Int) (id : String) (db : Db)
    (hlookup : be.findOneErr = none) :
    (findDoc id db = none →
      NeDBStore.get be now id db = (none, none, db)) ∧
    (∀ d, findDoc id db = some d → LiveClaim now d →
      NeDBStore.get be now id db = (none, some d.session, db)) ∧
    (∀ d, findDoc id db = some d → ¬ LiveClaim now d →
      NeDBStore.get be now id db =
        ((NeDBStore.destroy be id db).1, none, (NeDBStore.destroy be id db).2)) := by
  refine ⟨?_, ?_, ?_⟩
  · intro h
    simp [NeDBStore.get, hlookup, h]
  · intro d hd hl
    have hlive : NeDBStore.isLive now d = true := (isLive_iff_liveClaim now d).mpr hl
    simp [NeDBStore.get, hlookup, hd, hlive]
  · intro d hd hl
    have hlive : NeDBStore.isLive now d = false := by
      rcases Bool.eq_false_or_eq_true (NeDBStore.isLive now d) with h | h
      · exact absurd ((isLive_iff_liveClaim now d).mp h) hl
      · exact h
    simp [NeDBStore.get, hlookup, hd, hlive]

/-- Witness for C1: on a concrete stale record, `get` destroys it and
returns `(null, null)`. -/
theorem get_trichotomy_witness :
    NeDBStore.get Backend.ok 5000 "a" [docStaleA] = (none, none, []) := by
  have h := (get_trichotomy Backend.ok 5000 "a" [docStaleA] rfl).2.2 docStaleA
    (by decide)
    (fun hl => absurd ((isLive_iff_liveClaim 5000 docStaleA).mpr hl) (by decide))
  exact h.trans (by decide)

/-- C6: `touch` on a sessionId with no existing record (under a successful
underlying update) creates no record — the state is unchanged — and the
callback receives the error `No Session exists with ID <id>` (the id
JSON-stringified). -/
theorem touch_missing (be : Backend) (now : Int) (id : String) (s : Session)
    (db : Db) (hupd : be.updateErr = none) (h : findDoc id db = none) :
    NeDBStore.touch be now id s db =
      (some ("No Session exists with ID " ++ jsonStringify id), db) := by
  simp [NeDBStore.touch, hupd, h]

/-- Witness for C6: touching the id "zz" in an empty collection errors and
leaves the collection empty. -/
theorem touch_missing_witness :
    NeDBStore.touch Backend.ok 200 "zz" sessA [] =
      (some "No Session exists with ID \"zz\"", []) := by
  exact (touch_missing Backend.ok 200 "zz" sessA [] rfl rfl).trans (by decide)

/-- C8: at construction, a numeric `autoCompactInterval` is clamped to the
closed range [5000, 86400000] ms (1000 becomes 5000, 200000000 becomes
86400000, in-range values pass through unchanged, 1 day when no numeric
value is given), and the explicit `null` sentinel yields no scheduled
periodic compaction at all. -/
theorem aci_clamp (v : Int) :
    (∃ w, normalizeAci (.num true v) = some w ∧ 5000 ≤ w ∧ w ≤ ONE_DAY) ∧
    (5000 ≤ v → v ≤ ONE_DAY → normalizeAci (.num true v) = some v) ∧
    normalizeAci (.num true 1000) = some 5000 ∧
    normalizeAci (.num true 200000000) = some ONE_DAY ∧
    normalizeAci .missing = some ONE_DAY ∧
    normalizeAci .nullSentinel = none ∧
    (∀ hasFilename, compactionScheduled hasFilename (normalizeAci .nullSentinel) = false) := by
  refine ⟨?_, ?_, by decide, by decide, rfl, rfl, fun hf => by cases hf <;> rfl⟩
  · refine ⟨if v < 5000 then 5000 else if v < ONE_DAY then v else ONE_DAY, rfl, ?_, ?_⟩ <;>
      · dsimp only [ONE_DAY]
        split <;> [omega; (split <;> omega)]
  · intro h1 h2
    simp only [normalizeAci, ONE_DAY] at h2 ⊢
    rw [if_neg (by omega)]
    by_cases h : v < 86400000
    · rw [if_pos h]
    · rw [if_neg h]
      exact congrArg some (by omega)

/-- Witness for C8: the in-range value 6000 passes through unchanged. -/
theorem aci_clamp_witness :
    (5000:Int) ≤ 6000 ∧ normalizeAci (.num true 6000) = some 6000 :=
  ⟨by decide, (aci_clamp 6000).2.1 (by decide) (by decide)⟩

/-- C4: `all` (on a successful query) invokes its callback with no error and
exactly the payloads of the live records — liveness per the same test as
`get`, here stated as the spec's `liveSpec` — in collection order; every
destroy error from purging a stale record is emitted on the error channel
(the fourth component), never passed to the callback; and, for unique ids,
the next state drops exactly the stale records whose destroy succeeded. -/
theorem all_live_payloads (be : Backend) (now : Int) (db : Db)
    (hfe : be.findErr = none) :
    ((NeDBStore.all be now db).1 = none ∧
     (NeDBStore.all be now db).2.1 =
       some ((db.filter (fun d => liveSpec now d)).map (fun d => d.session)) ∧
     (NeDBStore.all be now db).2.2.2 =
       (db.filter (fun d => !liveSpec now d)).filterMap (fun d => be.removeErr d._id)) ∧
    ((db.map (fun d => d._id)).Nodup →
      (NeDBStore.all be now db).2.2.1 =
        db.filter (fun d => liveSpec now d || (be.removeErr d._id).isSome)) := by
  have he := all_eq be now db hfe
  have h1 : db.filter (fun d => NeDBStore.isLive now d) =
      db.filter (fun d => liveSpec now d) :=
    List.filter_congr (fun d _ => isLive_eq_liveSpec now d)
  have h2 : db.filter (fun d => !NeDBStore.isLive now d) =
      db.filter (fun d => !liveSpec now d) :=
    List.filter_congr (fun d _ => by rw [isLive_eq_liveSpec])
  refine ⟨⟨?_, ?_, ?_⟩, ?_⟩
  · rw [he]
  · rw [he, h1]
  · rw [he, h2]
  · intro hnd
    rw [all_state_nodup be now db hfe hnd]
    exact List.filter_congr (fun d _ => by rw [isLive_eq_liveSpec])

/-- Witness for C4: on a live/stale/non-expiring mix where destroying the
stale record fails, `all` returns the two live payloads, emits the destroy
error, and leaves the state intact. -/
theorem all_live_payloads_witness :
    (NeDBStore.all beFailA 6000 dbMix).2.1 =
      some [docLiveB.session, docNoExpiryC.session] ∧
    (NeDBStore.all beFailA 6000 dbMix).2.2.2 = ["boom"] ∧
    (NeDBStore.all beFailA 6000 dbMix).2.2.1 = dbMix :=
  ⟨((all_live_payloads beFailA 6000 dbMix rfl).1.2.1).trans (by decide),
   ((all_live_payloads beFailA 6000 dbMix rfl).1.2.2).trans (by decide),
   ((all_live_payloads beFailA 6000 dbMix rfl).2 (by decide)).trans (by decide)⟩

/-- C5: `length` reports the count of currently live sessions — the length
of the live result `all` produces under the same liveness filtering — never
a raw unfiltered document count. -/
theorem length_live_count (be : Backend) (now : Int) (db : Db)
    (hfe : be.findErr = none) :
    (NeDBStore.length be now db).1 = none ∧
    (NeDBStore.length be now db).2.1 =
      ((NeDBStore.all be now db).2.1.getD []).length ∧
    (NeDBStore.length be now db).2.1 =
      (db.filter (fun d => liveSpec now d)).length := by
  have he := all_eq be now db hfe
  refine ⟨?_, rfl, ?_⟩
  · show (NeDBStore.all be now db).1 = none
    rw [he]
  · show ((NeDBStore.all be now db).2.1.getD []).length = _
    rw [he]
    simp only [Option.getD_some, List.length_map]
    exact congrArg List.length (List.filter_congr (fun d _ => isLive_eq_liveSpec now d))

/-- Witness for C5: on a collection of 3 documents of which 2 are live, the
reported count is 2, not the raw 3. -/
theorem length_live_count_witness :
    (NeDBStore.length Backend.ok 6000 dbMix).2.1 = 2 ∧ dbMix.length = 3 :=
  ⟨((length_live_count Backend.ok 6000 dbMix rfl).2.2).trans (by decide), by decide⟩

/-- C7: `touch` on an existing record (under a successful underlying update)
modifies only that record's `updatedAt` — and its `expiresAt` iff the
supplied session's cookie carries a truthy expiration — leaving its `_id`,
stored payload and `createdAt`, and every other record, unchanged; only the
one (first) matching document is affected. -/
theorem touch_frame (be : Backend) (now : Int) (id : String) (s : Session)
    (db : Db) (d0 : Doc) (hupd : be.updateErr = none)
    (hf : findDoc id db = some d0) :
    ∃ pre post,
      db = pre ++ d0 :: post ∧
      (NeDBStore.touch be now id s db).1 = none ∧
      (NeDBStore.touch be now id s db).2 =
        pre ++ NeDBStore.touchedDoc now s d0 :: post ∧
      (NeDBStore.touchedDoc now s d0)._id = d0._id ∧
      (NeDBStore.touchedDoc now s d0).session = d0.session ∧
      (NeDBStore.touchedDoc now s d0).createdAt = d0.createdAt ∧
      (NeDBStore.touchedDoc now s d0).updatedAt = now ∧
      (∀ dv, s.cookieExpires = .val true dv →
        (NeDBStore.touchedDoc now s d0).expiresAt = ExpiresAt.ofDateVal dv) ∧
      ((∀ dv, s.cookieExpires ≠ .val true dv) →
        (NeDBStore.touchedDoc now s d0).expiresAt = d0.expiresAt) := by
  obtain ⟨hd, pre, post, hsplit, hpre⟩ := findDoc_split hf
  refine ⟨pre, post, hsplit, ?_, ?_, touchedDoc_id now s d0,
    touchedDoc_session now s d0, touchedDoc_createdAt now s d0,
    touchedDoc_updatedAt now s d0,
    fun dv h => touchedDoc_expiresAt_of_truthy now s d0 dv h,
    fun h => touchedDoc_expiresAt_of_not_truthy now s d0 h⟩
  · simp [NeDBStore.touch, hupd, hf]
  · simp only [NeDBStore.touch, hupd, hf]
    rw [hsplit]
    exact updateFirst_split _ d0 post hpre hd

/-- Witness for C7: touching an existing live record with a cookie expiring
at 5000 rewrites only `updatedAt` (to 777) and `expiresAt` (to 5000). -/
theorem touch_frame_witness :
    ∃ pre post,
      (NeDBStore.touch Backend.ok 777 "b" sessA [docLiveB]).2 =
        pre ++ NeDBStore.touchedDoc 777 sessA docLiveB :: post ∧
      (NeDBStore.touchedDoc 777 sessA docLiveB).updatedAt = 777 ∧
      (NeDBStore.touchedDoc 777 sessA docLiveB).expiresAt = ExpiresAt.at 5000 ∧
      (NeDBStore.touchedDoc 777 sessA docLiveB).session = docLiveB.session := by
  obtain ⟨pre, post, -, -, hstate, -, hsess, -, hupd, hexp, -⟩ :=
    touch_frame Backend.ok 777 "b" sessA [docLiveB] docLiveB rfl (by decide)
  exact ⟨pre, post, hstate, hupd, (hexp (some 5000) (by decide)).trans (by decide), hsess⟩

/-- Counterexample to C2 as stated: `session.cookie.expires = false` is
present and coercible to a timestamp (`new Date(false)` is the valid date
0), yet the stored `expiresAt` is the write time plus the default expiry —
not `new Date(session.cookie.expires)` —, because the code tests JS
truthiness, not coercibility. -/
theorem set_expiry_coercible_cex :
    (findDoc "sid" (NeDBStore.set Backend.ok TWO_WEEKS 1000000 "sid"
        sessFalseExpires []).2).map (fun d => d.expiresAt) =
      some (ExpiresAt.at 1210600000) ∧
    ExpiresAt.at 1210600000 ≠ ExpiresAt.at 0 := by decide

/-- C2 (amended): the stored record's `expiresAt` equals
`new Date(session.cookie.expires)` whenever `session.cookie.expires` is
present and truthy; otherwise (absent or falsy) it equals the write time
plus the configured defaultExpiry, where defaultExpiry defaults to 14 days
(1209600000 ms) and any non-number, non-finite, or non-positive configured
value falls back to that default. -/
theorem set_expiry (be : Backend) (de now : Int) (id : String) (s : Session)
    (db : Db) (hupd : be.updateErr = none) :
    (∀ d, findDoc id (NeDBStore.set be de now id s db).2 = some d →
      (∀ dv, s.cookieExpires = .val true dv →
        d.expiresAt = ExpiresAt.ofDateVal dv) ∧
      ((∀ dv, s.cookieExpires ≠ .val true dv) →
        d.expiresAt = ExpiresAt.at (now + de))) ∧
    TWO_WEEKS = 1209600000 ∧
    (∀ v : Int, v > 0 → normalizeDefaultExpiry (.num true v) = v) ∧
    (∀ v : Int, ¬ v > 0 → normalizeDefaultExpiry (.num true v) = TWO_WEEKS) ∧
    (∀ cfg : ConfigVal, (∀ v, cfg ≠ .num true v) →
      normalizeDefaultExpiry cfg = TWO_WEEKS) := by
  obtain ⟨c, hfind⟩ := findDoc_set de now id s db hupd
  refine ⟨?_, by decide, ?_, ?_, ?_⟩
  · intro d hd
    rw [hfind] at hd
    have hexp : d.expiresAt = NeDBStore.expirationDate de now s := by
      cases hd; rfl
    constructor
    · intro dv h
      rw [hexp]
      simp [NeDBStore.expirationDate, h]
    · intro h
      rw [hexp]
      cases he : s.cookieExpires with
      | absent => simp [NeDBStore.expirationDate, he]
      | val tr dv =>
        cases tr with
        | true => exact absurd he (h dv)
        | false => simp [NeDBStore.expirationDate, he]
  · intro v h
    simp [normalizeDefaultExpiry, h]
  · intro v h
    simp [normalizeDefaultExpiry, h]
  · intro cfg h
    cases cfg with
    | missing => rfl
    | nullSentinel => rfl
    | str p => rfl
    | num f v =>
      cases f with
      | true => exact absurd rfl (h v)
      | false => rfl

/-- Witness for C2 (amended): a truthy cookie expiry of 5000 is stored as
the valid date 5000. -/
theorem set_expiry_witness :
    (newDoc TWO_WEEKS 100 "sid" sessA).expiresAt = ExpiresAt.at 5000 := by
  have h := ((set_expiry Backend.ok TWO_WEEKS 100 "sid" sessA [] rfl).1
    (newDoc TWO_WEEKS 100 "sid" sessA) (by decide)).1 (some 5000) (by decide)
  exact h.trans (by decide)

/-- C9: `set` then `destroy` then `get` on the same id yields `(null, null)`
from the final `get`; the destroy removed at most the one document matching
the id (the collection shrinks by exactly one and every document with a
different id survives) and reported only the removal error — here none — to
its callback. -/
theorem set_destroy_get (be : Backend) (de n1 n2 : Int) (id : String)
    (s : Session) (db : Db)
    (hupd : be.updateErr = none) (hfo : be.findOneErr = none)
    (hrm : be.removeErr id = none) (hcount : countId id db ≤ 1) :
    (NeDBStore.destroy be id (NeDBStore.set be de n1 id s db).2).1 = none ∧
    NeDBStore.get be n2 id
        (NeDBStore.destroy be id (NeDBStore.set be de n1 id s db).2).2 =
      (none, none,
       (NeDBStore.destroy be id (NeDBStore.set be de n1 id s db).2).2) ∧
    (NeDBStore.destroy be id (NeDBStore.set be de n1 id s db).2).2.length + 1 =
      (NeDBStore.set be de n1 id s db).2.length ∧
    (∀ d ∈ (NeDBStore.set be de n1 id s db).2, d._id ≠ id →
      d ∈ (NeDBStore.destroy be id (NeDBStore.set be de n1 id s db).2).2) := by
  have hdes : NeDBStore.destroy be id (NeDBStore.set be de n1 id s db).2 =
      (none, removeFirst id (NeDBStore.set be de n1 id s db).2) := by
    simp [NeDBStore.destroy, hrm]
  obtain ⟨c, hfind⟩ := findDoc_set de n1 id s db hupd
  refine ⟨by rw [hdes], ?_, ?_, ?_⟩
  · rw [hdes]
    have hnone : findDoc id (removeFirst id (NeDBStore.set be de n1 id s db).2) = none :=
      findDoc_eq_none_iff.mpr (removeFirst_set_clean de n1 id s hupd hcount)
    simp [NeDBStore.get, hfo, hnone]
  · rw [hdes]
    exact removeFirst_length_of_found hfind
  · intro d hmem hne
    rw [hdes]
    exact mem_removeFirst_of_ne hmem hne

/-- Witness for C9: set, destroy, get on id "sid" over an empty collection
ends with `(null, null)` and an empty collection. -/
theorem set_destroy_get_witness :
    NeDBStore.get Backend.ok 200 "sid"
        (NeDBStore.destroy Backend.ok "sid"
          (NeDBStore.set Backend.ok TWO_WEEKS 100 "sid" sessB []).2).2 =
      (none, none, []) := by
  have h := (set_destroy_get Backend.ok TWO_WEEKS 100 200 "sid" sessB []
    rfl rfl rfl (by decide)).2.1
  exact h.trans (by decide)

/-- Counterexample to C3 as stated: with a cookie whose `toJSON` drops one
of the cookie's members, a `get` before the expiry returns the serialized
payload `set` stored, which is not equal to the session argument passed to
`set`. -/
theorem set_get_roundtrip_cex :
    (NeDBStore.get Backend.ok 100 "sid"
        (NeDBStore.set Backend.ok TWO_WEEKS 50 "sid" sessLossyCookie []).2).2.1 =
      some (serializeSession sessLossyCookie) ∧
    serializeSession sessLossyCookie ≠ sessionAsData sessLossyCookie := by
  decide

/-- C3 (amended): for a session written via `set` with a cookie carrying a
truthy `expires` coercible to timestamp `t`, a `get` strictly before `t`
returns the stored payload — the session argument with its cookie replaced
by the cookie's own `toJSON` serialization when one is offered (and hence
the session argument's own data when it is not) — while a `get` at or after
`t` (with a successful destroy) returns `(null, null)`, after which no
document with that id remains and a following `all` draws its payloads only
from the remaining documents. -/
theorem set_get_expiry (be : Backend) (de n1 n2 : Int) (id : String)
    (s : Session) (db : Db) (t : Int)
    (hupd : be.updateErr = none) (hfo : be.findOneErr = none)
    (hexp : s.cookieExpires = .val true (some t))
    (hcount : countId id db ≤ 1) :
    (n2 < t →
      NeDBStore.get be n2 id (NeDBStore.set be de n1 id s db).2 =
        (none, some (serializeSession s), (NeDBStore.set be de n1 id s db).2)) ∧
    (t ≤ n2 → be.removeErr id = none →
      NeDBStore.get be n2 id (NeDBStore.set be de n1 id s db).2 =
        (none, none, removeFirst id (NeDBStore.set be de n1 id s db).2) ∧
      (∀ d ∈ removeFirst id (NeDBStore.set be de n1 id s db).2, d._id ≠ id) ∧
      (be.findErr = none → ∀ n3 : Int,
        (NeDBStore.all be n3
            (removeFirst id (NeDBStore.set be de n1 id s db).2)).2.1 =
          some (((removeFirst id (NeDBStore.set be de n1 id s db).2).filter
            (fun d => NeDBStore.isLive n3 d)).map (fun d => d.session)))) := by
  obtain ⟨c, hfind⟩ := findDoc_set de n1 id s db hupd
  have hexpAt : NeDBStore.expirationDate de n1 s = ExpiresAt.at t := by
    simp [NeDBStore.expirationDate, hexp, ExpiresAt.ofDateVal]
  rw [hexpAt] at hfind
  constructor
  · intro hn2
    have hlive : NeDBStore.isLive n2
        { _id := id, session := serializeSession s, expiresAt := ExpiresAt.at t,
          createdAt := c, updatedAt := n1 } = true := by
      simp [NeDBStore.isLive, ExpiresAt.truthy, ExpiresAt.nowBefore, hn2]
    simp [NeDBStore.get, hfo, hfind, hlive]
  · intro hn2 hrm
    have hstale : NeDBStore.isLive n2
        { _id := id, session := serializeSession s, expiresAt := ExpiresAt.at t,
          createdAt := c, updatedAt := n1 } = false := by
      simp [NeDBStore.isLive, ExpiresAt.truthy, ExpiresAt.nowBefore]
      omega
    refine ⟨?_, removeFirst_set_clean de n1 id s hupd hcount, ?_⟩
    · simp [NeDBStore.get, hfo, hfind, hstale, NeDBStore.destroy, hrm]
    · intro hfe n3
      rw [all_eq be n3 _ hfe]

/-- Witness for C3 (amended): a session with cookie expiry 5000 written at
time 50 is returned unserialized-intact by a `get` at time 100. -/
theorem set_get_expiry_witness :
    NeDBStore.get Backend.ok 100 "sid"
        (NeDBStore.set Backend.ok TWO_WEEKS 50 "sid" sessA []).2 =
      (none, some (serializeSession sessA),
       (NeDBStore.set Backend.ok TWO_WEEKS 50 "sid" sessA []).2) :=
  (set_get_expiry Backend.ok TWO_WEEKS 50 100 "sid" sessA [] 5000
    rfl rfl (by decide) (by decide)).1 (by decide)

/-- C10: `set` performs no liveness validation on what it writes: when the
computed `expiresAt` is a timestamp at or before the (later) read time,
`set` still succeeds — its callback receives no error — and the record is
stored in the backing collection; yet a subsequent `get` of that id yields a
null payload and destroys the record, and the record is excluded from
`all`'s live result. -/
theorem set_stale_write (be : Backend) (de n1 n2 : Int) (id : String)
    (s : Session) (db : Db) (t : Int)
    (hupd : be.updateErr = none) (hfo : be.findOneErr = none)
    (hrm : be.removeErr id = none) (hcount : countId id db ≤ 1)
    (hstale : NeDBStore.expirationDate de n1 s = ExpiresAt.at t)
    (ht : t ≤ n2) :
    (NeDBStore.set be de n1 id s db).1 = none ∧
    (findDoc id (NeDBStore.set be de n1 id s db).2).isSome = true ∧
    (NeDBStore.get be n2 id (NeDBStore.set be de n1 id s db).2).2.1 = none ∧
    findDoc id
        (NeDBStore.get be n2 id (NeDBStore.set be de n1 id s db).2).2.2 = none ∧
    (∀ d ∈ (NeDBStore.set be de n1 id s db).2.filter
        (fun x => NeDBStore.isLive n2 x), d._id ≠ id) := by
  obtain ⟨c, hfind⟩ := findDoc_set de n1 id s db hupd
  rw [hstale] at hfind
  have hstaleLive : NeDBStore.isLive n2
      { _id := id, session := serializeSession s, expiresAt := ExpiresAt.at t,
        createdAt := c, updatedAt := n1 } = false := by
    simp [NeDBStore.isLive, ExpiresAt.truthy, ExpiresAt.nowBefore]
    omega
  have hget : NeDBStore.get be n2 id (NeDBStore.set be de n1 id s db).2 =
      (none, none, removeFirst id (NeDBStore.set be de n1 id s db).2) := by
    simp [NeDBStore.get, hfo, hfind, hstaleLive, NeDBStore.destroy, hrm]
  refine ⟨set_fst de n1 id s db hupd, by rw [hfind]; rfl, by rw [hget], ?_, ?_⟩
  · rw [hget]
    exact findDoc_eq_none_iff.mpr (removeFirst_set_clean de n1 id s hupd hcount)
  · intro d hmem hid
    obtain ⟨hdb, hlived⟩ := List.mem_filter.mp hmem
    have hddmem : (⟨id, serializeSession s, ExpiresAt.at t, c, n1⟩ : Doc) ∈
        (NeDBStore.set be de n1 id s db).2 :=
      List.mem_of_find?_eq_some hfind
    have hc1 : countId id (NeDBStore.set be de n1 id s db).2 = 1 :=
      countId_set de n1 id s hupd hcount
    have hdd := eq_of_countId_le_one (le_of_eq hc1) hdb hddmem hid rfl
    rw [hdd] at hlived
    rw [hstaleLive] at hlived
    exact Bool.false_ne_true hlived

/-- Witness for C10: a session whose cookie already expired at 5000 is still
written successfully at time 6000, and a `get` at 7000 yields a null
payload. -/
theorem set_stale_write_witness :
    (NeDBStore.set Backend.ok TWO_WEEKS 6000 "sid" sessA []).1 = none ∧
    (NeDBStore.get Backend.ok 7000 "sid"
        (NeDBStore.set Backend.ok TWO_WEEKS 6000 "sid" sessA []).2).2.1 = none := by
  have h := set_stale_write Backend.ok TWO_WEEKS 6000 7000 "sid" sessA [] 5000
    rfl rfl rfl (by decide) (by decide) (by decide)
  exact ⟨h.1, h.2.2.1⟩

end NeDBSessionStore
